import Mathlib

/-!
Verification of the Rotation Metrics Engine of `src/app.py` (an RRG sector
dashboard).

Embedding conventions:
* Closing prices are modelled as exact rationals (`ℚ`).  Pandas/NumPy float
  cells that can be NaN or infinite are modelled by `PFloat`, an extended
  value type with `nan`, `pinf`, `ninf` and finite rationals, whose
  arithmetic and comparisons mirror IEEE semantics (any comparison with NaN
  is false, `x / 0 = ±inf` for `x ≠ 0`, `0 / 0 = NaN`).
* A pandas `Series` is modelled as a `List`, positions standing for the
  timestamp index; a cell that is NaN because of insufficient rolling
  history is an `Option ℚ` that is `none`.
* `rolling(w).mean()` (default `min_periods = w`) is `rollingMeanO`: the
  mean of the trailing window of `w` cells, `none` while fewer than `w`
  rows exist or when any cell in the window is missing.
* Aligned price tables are same-length lists; the date index is abstracted
  to positions.  Prices are positive in every scenario exercised here, so
  plain `ℚ` division is exact for the RS quotients.
-/

namespace RRG

/-- Quadrant labels of the relative rotation graph, as returned by
`get_quadrant` in `src/app.py`. -/
inductive Quadrant where
  | Leading
  | Weakening
  | Lagging
  | Improving
deriving DecidableEq, Repr

/-- Model of `get_quadrant(rs_ratio, rs_momentum)` (src/app.py lines 19-27)
restricted to real (non-NaN) inputs. -/
def get_quadrant (r m : ℚ) : Quadrant :=
  if 100 ≤ r ∧ 100 ≤ m then .Leading
  else if 100 ≤ r ∧ m < 100 then .Weakening
  else if r < 100 ∧ m < 100 then .Lagging
  else .Improving

/-- Extended float value: NaN, plus or minus infinity, or a finite rational.
Used wherever the Python code can produce NaN or infinity. -/
inductive PFloat where
  | nan
  | pinf
  | ninf
  | fin (q : ℚ)
deriving DecidableEq, Repr

/-- IEEE-style addition on extended values. -/
def PFloat.add : PFloat → PFloat → PFloat
  | .nan, _ => .nan
  | _, .nan => .nan
  | .pinf, .ninf => .nan
  | .ninf, .pinf => .nan
  | .pinf, _ => .pinf
  | _, .pinf => .pinf
  | .ninf, _ => .ninf
  | _, .ninf => .ninf
  | .fin a, .fin b => .fin (a + b)

/-- IEEE-style subtraction on extended values. -/
def PFloat.sub : PFloat → PFloat → PFloat
  | .nan, _ => .nan
  | _, .nan => .nan
  | .pinf, .pinf => .nan
  | .ninf, .ninf => .nan
  | .pinf, _ => .pinf
  | .ninf, _ => .ninf
  | .fin _, .pinf => .ninf
  | .fin _, .ninf => .pinf
  | .fin a, .fin b => .fin (a - b)

/-- IEEE-style division on extended values: a nonzero finite value divided
by zero gives a signed infinity, `0 / 0` gives NaN. -/
def PFloat.div : PFloat → PFloat → PFloat
  | .nan, _ => .nan
  | _, .nan => .nan
  | .pinf, .pinf => .nan
  | .pinf, .ninf => .nan
  | .ninf, .pinf => .nan
  | .ninf, .ninf => .nan
  | .pinf, .fin b => if 0 ≤ b then .pinf else .ninf
  | .ninf, .fin b => if 0 ≤ b then .ninf else .pinf
  | .fin _, .pinf => .fin 0
  | .fin _, .ninf => .fin 0
  | .fin a, .fin b =>
      if b = 0 then (if 0 < a then .pinf else if a < 0 then .ninf else .nan)
      else .fin (a / b)

/-- Strict `>` on extended values; any comparison involving NaN is false,
exactly as for Python floats. -/
def PFloat.gt : PFloat → PFloat → Bool
  | .nan, _ => false
  | _, .nan => false
  | .pinf, .pinf => false
  | .pinf, _ => true
  | _, .pinf => false
  | .ninf, _ => false
  | .fin _, .ninf => true
  | .fin a, .fin b => decide (b < a)

/-- Non-strict `>=` on extended values; false whenever NaN is involved. -/
def PFloat.ge : PFloat → PFloat → Bool
  | .nan, _ => false
  | _, .nan => false
  | .pinf, _ => true
  | _, .pinf => false
  | _, .ninf => true
  | .ninf, _ => false
  | .fin a, .fin b => decide (b ≤ a)

/-- Strict `<` on extended values; false whenever NaN is involved. -/
def PFloat.lt (a b : PFloat) : Bool := PFloat.gt b a

/-- A possibly-missing rational cell read as a float: a missing cell is NaN. -/
def toPFloat : Option ℚ → PFloat
  | none => .nan
  | some q => .fin q

/-- Model of `get_quadrant` applied to raw float cells, which can be NaN:
the comparison chain of src/app.py lines 20-27 with float comparison
semantics.  On finite inputs it agrees with `get_quadrant`. -/
def get_quadrantF (r m : PFloat) : Quadrant :=
  if r.ge (.fin 100) && m.ge (.fin 100) then .Leading
  else if r.ge (.fin 100) && m.lt (.fin 100) then .Weakening
  else if r.lt (.fin 100) && m.lt (.fin 100) then .Lagging
  else .Improving

/-- `allSome l` is `some` of the underlying values when no cell of `l` is
missing, and `none` otherwise (a NaN cell poisons the rolling window). -/
def allSome : List (Option ℚ) → Option (List ℚ)
  | [] => some []
  | none :: _ => none
  | some a :: t => (allSome t).map (a :: ·)

/-- Model of `series.rolling(w).mean()` at row `i`: the mean of the trailing
`w` cells ending at `i` inclusive, missing while fewer than `w` rows exist,
when `i` is out of range, or when the window contains a missing cell
(src/app.py lines 36, 42-43, 248-249). -/
def rollingMeanO (w : ℕ) (l : List (Option ℚ)) (i : ℕ) : Option ℚ :=
  if i + 1 < w ∨ l.length ≤ i then none
  else (allSome ((l.drop (i + 1 - w)).take w)).map (fun v => v.sum / (w : ℚ))

/-- Model of `close.diff()` (src/app.py line 38): first cell missing, then
consecutive differences. -/
def diffsO : List ℚ → List (Option ℚ)
  | [] => []
  | a :: t => none :: (a :: t).zipWith (fun x y => some (y - x)) t

/-- Model of `delta.clip(lower=0)` on one cell (src/app.py line 39). -/
def clipGain (o : Option ℚ) : Option ℚ := o.map (fun d => max d 0)

/-- Model of `-delta.clip(upper=0)` on one cell (src/app.py line 40):
`-min(d, 0) = max(-d, 0)`. -/
def clipLoss (o : Option ℚ) : Option ℚ := o.map (fun d => max (-d) 0)

/-- Model of `close.rolling(20).mean()` at row `i` (src/app.py line 36). -/
def smaO (c : List ℚ) (i : ℕ) : Option ℚ := rollingMeanO 20 (c.map some) i

/-- Model of `gain.rolling(14).mean()` at row `i` (src/app.py line 42). -/
def avgGainO (c : List ℚ) (i : ℕ) : Option ℚ :=
  rollingMeanO 14 ((diffsO c).map clipGain) i

/-- Model of `loss.rolling(14).mean()` at row `i` (src/app.py line 43). -/
def avgLossO (c : List ℚ) (i : ℕ) : Option ℚ :=
  rollingMeanO 14 ((diffsO c).map clipLoss) i

/-- Float division of two possibly-missing cells (src/app.py line 45,
`rs = avg_gain / avg_loss`): NaN inputs give NaN, division of a positive
value by zero gives `+inf`, `0 / 0` gives NaN. -/
def pdivO : Option ℚ → Option ℚ → PFloat
  | some a, some b => PFloat.div (.fin a) (.fin b)
  | _, _ => .nan

/-- Model of the `rs` series at row `i` (src/app.py line 45). -/
def rsO (c : List ℚ) (i : ℕ) : PFloat := pdivO (avgGainO c i) (avgLossO c i)

/-- Model of `rsi = 100 - (100 / (1 + rs))` at row `i` (src/app.py
line 46), in float semantics so that `rs = +inf` yields exactly 100. -/
def rsiO (c : List ℚ) (i : ℕ) : PFloat :=
  PFloat.sub (.fin 100) (PFloat.div (.fin 100) (PFloat.add (.fin 1) (rsO c i)))

/-- Comparison `price_now > sma_now` where the moving average cell may be
missing (float comparison with NaN is false). -/
def qGtO (a : ℚ) : Option ℚ → Bool
  | none => false
  | some b => decide (b < a)

/-- Model of `daily_entry_signal(df)` (src/app.py lines 30-53).  The input
is the close-price column; `iloc[-1]` and `iloc[-2]` are the last and
second-to-last rows, reached only after the 21-row guard. -/
def daily_entry_signal (c : List ℚ) : String :=
  if c.length < 21 then "NO"
  else
    if qGtO (c.getLastD 0) (smaO c (c.length - 1))
        && (rsiO c (c.length - 1)).gt (.fin 55)
        && (rsiO c (c.length - 1)).gt (rsiO c (c.length - 2)) then "YES"
    else "NO"

/-! ### Direct last-window formulations

The following definitions restate the indicator values at the most recent
observation directly in terms of the trailing windows of the close series,
the way the specification words them.  The theorems below connect them to
the rolling-series pipeline above. -/

/-- Last `k` elements of a list. -/
def lastN (k : ℕ) (l : List ℚ) : List ℚ := l.drop (l.length - k)

/-- Consecutive daily changes of a close series. -/
def diffs (c : List ℚ) : List ℚ := c.zipWith (fun x y => y - x) c.tail

/-- Simple moving average of the last `w` closes. -/
def smaLast (w : ℕ) (c : List ℚ) : ℚ := (lastN w c).sum / (w : ℚ)

/-- Fourteen-period average gain at the latest observation: mean of the
clipped positive changes over the last 14 daily changes. -/
def avgGainLast (c : List ℚ) : ℚ :=
  ((lastN 14 (diffs c)).map (fun d => max d 0)).sum / (14 : ℚ)

/-- Fourteen-period average loss at the latest observation: mean of the
clipped negative changes over the last 14 daily changes. -/
def avgLossLast (c : List ℚ) : ℚ :=
  ((lastN 14 (diffs c)).map (fun d => max (-d) 0)).sum / (14 : ℚ)

/-- Fourteen-period RSI at the latest observation,
`100 - 100 / (1 + avg_gain / avg_loss)` in float semantics (a zero average
loss with positive average gain yields exactly 100). -/
def rsiLast (c : List ℚ) : PFloat :=
  PFloat.sub (.fin 100)
    (PFloat.div (.fin 100)
      (PFloat.add (.fin 1)
        (PFloat.div (.fin (avgGainLast c)) (.fin (avgLossLast c)))))

/-! ### Rotation metrics (src/app.py lines 247-249)

`s` is one aligned sector series and `b` the aligned benchmark series;
positions stand for the shared timestamp index. -/

/-- Model of `rs = prices[sector] / prices["Benchmark"]` (line 247). -/
def rsSeries (s b : List ℚ) : List ℚ := s.zipWith (· / ·) b

/-- Model of `rs_ratio = 100 * rs / rs.rolling(14).mean()` at row `t`
(line 248); missing while the 14-period window of RS history is
incomplete. -/
def rsRatioAt (s b : List ℚ) (t : ℕ) : Option ℚ :=
  match (rsSeries s b)[t]?, rollingMeanO 14 ((rsSeries s b).map some) t with
  | some r, some m => some (100 * r / m)
  | _, _ => none

/-- The RS-Ratio values as a series over the aligned index. -/
def rsRatioSeq (s b : List ℚ) : List (Option ℚ) :=
  (List.range (rsSeries s b).length).map (rsRatioAt s b)

/-- Model of `rs_momentum = 100 * rs_ratio / rs_ratio.rolling(14).mean()`
at row `t` (line 249); missing until a full 14-period window of defined
RS-Ratio values exists. -/
def rsMomentumAt (s b : List ℚ) (t : ℕ) : Option ℚ :=
  match (rsRatioSeq s b)[t]?, rollingMeanO 14 (rsRatioSeq s b) t with
  | some (some r), some m => some (100 * r / m)
  | _, _ => none

/-! ### Latest-row classification and ranking (src/app.py lines 263-301) -/

/-- One row of the `latest_data` table (src/app.py lines 277-283), with the
metric cells kept in float semantics (they are NaN when the rolling history
is too short). -/
structure RowF where
  sector : String
  rsRatioF : PFloat
  rsMomentumF : PFloat
  quadrant : Quadrant
  dailyEntry : String
deriving DecidableEq, Repr

/-- Model of one iteration of the `latest_data` loop (src/app.py lines
265-283): read the latest RS-Ratio and RS-Momentum cells, classify them
with `get_quadrant`, and attach the daily entry signal subject to the
Weekly/quadrant gate. -/
def latest_row (tf : String) (dailyData : String → List ℚ) (b : List ℚ)
    (p : String × List ℚ) : RowF :=
  let n := (rsSeries p.2 b).length
  let r := toPFloat (rsRatioAt p.2 b (n - 1))
  let m := toPFloat (rsMomentumAt p.2 b (n - 1))
  let q := get_quadrantF r m
  let sig :=
    if tf == "Weekly" && (q == Quadrant.Leading || q == Quadrant.Improving) then
      daily_entry_signal (dailyData p.1)
    else if tf == "Weekly" then "—"
    else "N/A"
  ⟨p.1, r, m, q, sig⟩

/-- A ranking row with real-valued (non-NaN) metrics, the `RankingRow` of
the specification. -/
structure Row where
  sector : String
  rsRatioVal : ℚ
  rsMomentumVal : ℚ
  quadrant : Quadrant
  dailyEntry : String
deriving DecidableEq, Repr

/-- Model of the `quadrant_order` priority map (src/app.py lines 287-292). -/
def quadrant_order : Quadrant → ℕ
  | .Leading => 0
  | .Improving => 1
  | .Weakening => 2
  | .Lagging => 3

/-- Sort key of `ranking_df.sort_values(["Order", "RS-Ratio"],
ascending=[True, False])` (src/app.py line 295): quadrant priority
ascending, then RS-Ratio descending. -/
def rankLE (a b : Row) : Bool :=
  decide (quadrant_order a.quadrant < quadrant_order b.quadrant) ||
    (decide (quadrant_order a.quadrant = quadrant_order b.quadrant) &&
      decide (b.rsRatioVal ≤ a.rsRatioVal))

/-- Model of the sorted ranking table (src/app.py lines 294-295). -/
def ranking_sorted (rows : List Row) : List Row := rows.mergeSort rankLE

/-- Model of `ranking_df["Quadrant"].value_counts().reindex([...],
fill_value=0)` (src/app.py lines 297-301), applied to the quadrant column:
occurrence counts reindexed so that all four labels are always present. -/
def quadrant_counts (qs : List Quadrant) : List (Quadrant × ℕ) :=
  [Quadrant.Leading, Quadrant.Improving, Quadrant.Weakening, Quadrant.Lagging].map
    (fun q => (q, (qs.filter (fun x => x == q)).length))

/-! ### Data acquisition and pipeline (src/app.py lines 131-151, 211-283)

Downloads are inputs here: a sector or benchmark download is `none` when
the fetched frame is unusable (empty, or without a "Close" column), and
`some closes` otherwise. -/

/-- Model of the benchmark fallback loop (src/app.py lines 137-143): the
first candidate whose download is non-empty and has a close column. -/
def findBenchmark (cands : List (String × Option (List ℚ))) :
    Option (String × List ℚ) :=
  cands.findSome? (fun p => p.2.bind (fun l => if l.isEmpty then none else some (p.1, l)))

/-- Model of the sector download loop (src/app.py lines 223-229): sectors
with an unusable download are skipped, the rest contribute their close
column to the price table. -/
def buildPrices (sectorDls : List (String × Option (List ℚ))) :
    List (String × List ℚ) :=
  sectorDls.filterMap (fun p =>
    p.2.bind (fun l => if l.isEmpty then none else some (p.1, l)))

/-- Model of the column selection `prices[sectors.keys()]` (src/app.py line
247): selecting a list of column labels from a frame raises `KeyError` when
any label is absent. -/
def selectColumns (table : List (String × List ℚ)) (keys : List String) :
    Except String (List (String × List ℚ)) :=
  if keys.all (fun k => table.any (fun p => p.1 == k)) then
    .ok (keys.filterMap (fun k => (table.find? (fun p => p.1 == k)).map (fun p => (k, p.2))))
  else .error "KeyError: columns not in index"

/-- Model of the engine pipeline of src/app.py lines 131-151 and 211-283:
benchmark fallback selection, the mandatory benchmark guard, the sector
download loop, the `prices[sectors.keys()]` column selection, and the
`latest_data` loop.  Termination with `.error` models `st.stop()` or an
uncaught pandas exception: no partial output exists in that case.  The
inner join of the date index is abstracted as truncation to the common
length. -/
def runEngine (benchCands : List (String × Option (List ℚ)))
    (benchMain : Option (List ℚ))
    (sectorDls : List (String × Option (List ℚ)))
    (tf : String) (dailyData : String → List ℚ) :
    Except String (List RowF) :=
  match findBenchmark benchCands with
  | none => .error "Benchmark data could not be loaded from Yahoo Finance."
  | some _ =>
      match benchMain with
      | none => .error "Benchmark data (NIFTY 50) could not be loaded."
      | some bRaw =>
          if bRaw.isEmpty then .error "Benchmark data (NIFTY 50) could not be loaded."
          else
            let table := buildPrices sectorDls
            match selectColumns table (sectorDls.map (fun p => p.1)) with
            | .error e => .error e
            | .ok sel =>
                let L := sel.foldl (fun acc p => min acc p.2.length) bRaw.length
                let b := bRaw.take L
                .ok (sel.map (fun p => latest_row tf dailyData b (p.1, p.2.take L)))

/-! ### Concrete inputs used in witnesses and counterexamples -/

/-- A 21-point close series whose latest observation satisfies all three
entry conditions: one down day falls just outside the final RSI window. -/
def witSeries : List ℚ :=
  [100, 101, 102, 103, 104, 105, 104, 105, 106, 107, 108,
   109, 110, 111, 112, 113, 114, 115, 116, 117, 118]

/-- A strictly increasing 20-point close series (no down days). -/
def incSeries : List ℚ :=
  [1, 2, 3, 4, 5, 6, 7, 8, 9, 10, 11, 12, 13, 14, 15, 16, 17, 18, 19, 20]

/-- A 10-point daily close series. -/
def shortSeries : List ℚ := [1, 2, 3, 4, 5, 6, 7, 8, 9, 10]

/-- Twenty aligned observations of constant price 1 (fewer than the 27
periods needed for a defined RS-Momentum). -/
def onesSeries : List ℚ := List.replicate 20 1

/-- Thirty days of valid positive prices. -/
def goodSeries : List ℚ := List.replicate 30 1

/-- Sector download results in which only the IT download is unusable. -/
def dlsMissingIT : List (String × Option (List ℚ)) :=
  [("Bank", some goodSeries), ("IT", none), ("FMCG", some goodSeries),
   ("Auto", some goodSeries), ("Pharma", some goodSeries),
   ("Metal", some goodSeries), ("Energy", some goodSeries)]

/-- Benchmark candidate downloads with a usable first candidate. -/
def benchCandsOk : List (String × Option (List ℚ)) :=
  [("NIFTY 50 (ETF)", some goodSeries)]

/-- Benchmark candidate downloads that all fail. -/
def benchCandsFail : List (String × Option (List ℚ)) :=
  [("NIFTY 50 (ETF)", none), ("NIFTY 50 (Index)", none), ("Bank Nifty (ETF)", none)]

/-! ### Rolling-window evaluation lemmas -/

theorem allSome_map_some (l : List ℚ) : allSome (l.map some) = some l := by
  induction l with
  | nil => rfl
  | cons a t ih => simp [allSome, ih]

theorem diffs_cons_cons (a b : ℚ) (l : List ℚ) :
    diffs (a :: b :: l) = (b - a) :: diffs (b :: l) := rfl

theorem length_diffs (c : List ℚ) : (diffs c).length = c.length - 1 := by
  cases c with
  | nil => rfl
  | cons a t => simp [diffs]

theorem diffsO_cons (a : ℚ) (t : List ℚ) :
    diffsO (a :: t) = none :: (diffs (a :: t)).map some := by
  simp [diffsO, diffs, List.map_zipWith]

theorem rollingMeanO_map_some (l : List ℚ) (w i : ℕ) (hw : w ≤ i + 1)
    (hi : i < l.length) :
    rollingMeanO w (l.map some) i
      = some (((l.drop (i + 1 - w)).take w).sum / (w : ℚ)) := by
  rw [rollingMeanO, if_neg (by simp only [List.length_map]; omega),
    ← List.map_drop, ← List.map_take, allSome_map_some]
  rfl

theorem rollingMeanO_noneCons (l : List ℚ) (w i : ℕ) (_h0 : 0 < w) (hw : w ≤ i)
    (hi : i ≤ l.length) :
    rollingMeanO w (none :: l.map some) i
      = some (((l.drop (i - w)).take w).sum / (w : ℚ)) := by
  rw [rollingMeanO,
    if_neg (by simp only [List.length_cons, List.length_map]; omega)]
  have h2 : i + 1 - w = (i - w) + 1 := by omega
  rw [h2, List.drop_succ_cons, ← List.map_drop, ← List.map_take, allSome_map_some]
  rfl

theorem rolling_clip (g : ℚ → ℚ) (c : List ℚ) (i : ℕ) (h14 : 14 ≤ i)
    (hi : i < c.length) :
    rollingMeanO 14 ((diffsO c).map (fun o => Option.map g o)) i
      = some (((((diffs c).drop (i - 14)).take 14).map g).sum / (14 : ℚ)) := by
  match c with
  | [] => simp at hi
  | a :: t =>
    rw [diffsO_cons]
    have hmap : ((none :: (diffs (a :: t)).map some).map (fun o => Option.map g o))
        = none :: ((diffs (a :: t)).map g).map some := by
      simp [List.map_map, Function.comp_def]
    rw [hmap, rollingMeanO_noneCons ((diffs (a :: t)).map g) 14 i (by norm_num) h14
      (by simp only [List.length_map, length_diffs, List.length_cons]
          simp only [List.length_cons] at hi; omega)]
    simp

theorem avgGainO_eq (c : List ℚ) (i : ℕ) (h14 : 14 ≤ i) (hi : i < c.length) :
    avgGainO c i
      = some (((((diffs c).drop (i - 14)).take 14).map (fun d => max d 0)).sum / (14 : ℚ)) :=
  rolling_clip (fun d => max d 0) c i h14 hi

theorem avgLossO_eq (c : List ℚ) (i : ℕ) (h14 : 14 ≤ i) (hi : i < c.length) :
    avgLossO c i
      = some (((((diffs c).drop (i - 14)).take 14).map (fun d => max (-d) 0)).sum / (14 : ℚ)) :=
  rolling_clip (fun d => max (-d) 0) c i h14 hi

theorem smaO_last (c : List ℚ) (h : 20 ≤ c.length) :
    smaO c (c.length - 1) = some (smaLast 20 c) := by
  rw [smaO, rollingMeanO_map_some c 20 (c.length - 1) (by omega) (by omega)]
  have h1 : c.length - 1 + 1 - 20 = c.length - 20 := by omega
  rw [h1, smaLast, lastN,
    List.take_of_length_le (by rw [List.length_drop]; omega)]

theorem avgGainO_last (c : List ℚ) (h : 15 ≤ c.length) :
    avgGainO c (c.length - 1) = some (avgGainLast c) := by
  rw [avgGainO_eq c _ (by omega) (by omega), avgGainLast, lastN, length_diffs,
    List.take_of_length_le (by rw [List.length_drop, length_diffs]; omega)]

theorem avgLossO_last (c : List ℚ) (h : 15 ≤ c.length) :
    avgLossO c (c.length - 1) = some (avgLossLast c) := by
  rw [avgLossO_eq c _ (by omega) (by omega), avgLossLast, lastN, length_diffs,
    List.take_of_length_le (by rw [List.length_drop, length_diffs]; omega)]

theorem diffs_dropLast : ∀ c : List ℚ, diffs c.dropLast = (diffs c).dropLast
  | [] => rfl
  | [_] => rfl
  | [_, _] => rfl
  | a :: b :: d :: t => by
      have ih := diffs_dropLast (b :: d :: t)
      show diffs (a :: b :: (d :: t).dropLast) = ((b - a) :: diffs (b :: d :: t)).dropLast
      rw [diffs_cons_cons,
        show ((b - a) :: diffs (b :: d :: t)).dropLast
          = (b - a) :: (diffs (b :: d :: t)).dropLast from rfl, ← ih]
      rfl

theorem window_prev (c : List ℚ) (h : 16 ≤ c.length) :
    lastN 14 (diffs c.dropLast) = ((diffs c).drop (c.length - 2 - 14)).take 14 := by
  have hk : (diffs c).dropLast = (diffs c).take (c.length - 2) := by
    rw [List.dropLast_eq_take, length_diffs]
    have : c.length - 1 - 1 = c.length - 2 := by omega
    rw [this]
  rw [diffs_dropLast, lastN, hk, List.length_take, length_diffs]
  have h1 : min (c.length - 2) (c.length - 1) = c.length - 2 := by omega
  rw [h1, List.drop_take]
  have h2 : c.length - 2 - (c.length - 2 - 14) = 14 := by omega
  rw [h2]

theorem avgGainO_prev (c : List ℚ) (h : 16 ≤ c.length) :
    avgGainO c (c.length - 2) = some (avgGainLast c.dropLast) := by
  rw [avgGainO_eq c _ (by omega) (by omega), avgGainLast, window_prev c h]

theorem avgLossO_prev (c : List ℚ) (h : 16 ≤ c.length) :
    avgLossO c (c.length - 2) = some (avgLossLast c.dropLast) := by
  rw [avgLossO_eq c _ (by omega) (by omega), avgLossLast, window_prev c h]

/-! ### RSI and signal lemmas -/

theorem rsiO_last (c : List ℚ) (h : 15 ≤ c.length) :
    rsiO c (c.length - 1) = rsiLast c := by
  rw [rsiO, rsO, avgGainO_last c h, avgLossO_last c h, rsiLast]
  rfl

theorem rsiO_prev (c : List ℚ) (h : 16 ≤ c.length) :
    rsiO c (c.length - 2) = rsiLast c.dropLast := by
  rw [rsiO, rsO, avgGainO_prev c h, avgLossO_prev c h, rsiLast]
  rfl

theorem signal_cases (c : List ℚ) :
    daily_entry_signal c = "YES" ∨ daily_entry_signal c = "NO" := by
  rw [daily_entry_signal]
  split_ifs <;> simp

theorem signal_yes_iff (c : List ℚ) (h : 21 ≤ c.length) :
    daily_entry_signal c = "YES" ↔
      (smaLast 20 c < c.getLastD 0 ∧ (rsiLast c).gt (.fin 55) = true ∧
        (rsiLast c).gt (rsiLast c.dropLast) = true) := by
  rw [daily_entry_signal, if_neg (by omega), smaO_last c (by omega),
    rsiO_last c (by omega), rsiO_prev c (by omega)]
  split_ifs with hc
  · simp only [Bool.and_eq_true, qGtO, decide_eq_true_eq] at hc
    exact iff_of_true rfl ⟨hc.1.1, hc.1.2, hc.2⟩
  · refine iff_of_false (by decide) ?_
    rintro ⟨h1, h2, h3⟩
    rw [List.getLastD_eq_getLast?] at h1
    exact hc (by simp [qGtO, Bool.and_eq_true, decide_eq_true_eq, h1, h2, h3])

/-! ### Lemmas about special close series -/

theorem diffs_pos : ∀ c : List ℚ, List.Chain' (· < ·) c → ∀ d ∈ diffs c, 0 < d
  | [], _, d, hd => by simp [diffs] at hd
  | [_], _, d, hd => by simp [diffs] at hd
  | a :: b :: t, hch, d, hd => by
      rw [diffs_cons_cons] at hd
      rcases List.mem_cons.mp hd with rfl | hd'
      · have hab := (List.chain'_cons.mp hch).1
        linarith
      · exact diffs_pos (b :: t) (List.chain'_cons.mp hch).2 d hd'

theorem diffs_replicate : ∀ (n : ℕ) (q : ℚ) (d : ℚ),
    d ∈ diffs (List.replicate n q) → d = 0
  | 0, q, d, hd => by simp [diffs] at hd
  | 1, q, d, hd => by simp [diffs] at hd
  | n + 2, q, d, hd => by
      rw [List.replicate_succ, List.replicate_succ, diffs_cons_cons] at hd
      rcases List.mem_cons.mp hd with rfl | hd'
      · exact sub_self q
      · exact diffs_replicate (n + 1) q d (by rw [List.replicate_succ]; exact hd')

theorem avgLossLast_zero (c : List ℚ) (hpos : ∀ d ∈ diffs c, 0 < d) :
    avgLossLast c = 0 := by
  rw [avgLossLast, List.sum_eq_zero, zero_div]
  intro x hx
  rcases List.mem_map.mp hx with ⟨d, hd, rfl⟩
  have hdpos : 0 < d := hpos d (List.drop_subset _ _ hd)
  exact max_eq_right (by linarith)

theorem avgGainLast_pos (c : List ℚ) (hpos : ∀ d ∈ diffs c, 0 < d)
    (hlen : 15 ≤ c.length) : 0 < avgGainLast c := by
  rw [avgGainLast]
  apply div_pos ?_ (by norm_num)
  apply List.sum_pos
  · intro x hx
    rcases List.mem_map.mp hx with ⟨d, hd, rfl⟩
    have hdpos : 0 < d := hpos d (List.drop_subset _ _ hd)
    rw [max_eq_left hdpos.le]
    exact hdpos
  · apply List.ne_nil_of_length_pos
    rw [List.length_map, lastN, List.length_drop, length_diffs]
    omega

theorem rsi_of_zero_loss (g : ℚ) (hg : 0 < g) :
    PFloat.sub (.fin 100)
      (PFloat.div (.fin 100)
        (PFloat.add (.fin 1) (PFloat.div (.fin g) (.fin 0)))) = .fin 100 := by
  have h1 : PFloat.div (.fin g) (.fin 0) = .pinf := by
    simp [PFloat.div, hg]
  rw [h1]
  show PFloat.sub (.fin 100) (PFloat.div (.fin 100) .pinf) = .fin 100
  show PFloat.sub (.fin 100) (.fin 0) = .fin 100
  show PFloat.fin (100 - 0) = .fin 100
  norm_num

theorem rsiLast_hundred (c : List ℚ) (hpos : ∀ d ∈ diffs c, 0 < d)
    (hlen : 15 ≤ c.length) : rsiLast c = .fin 100 := by
  rw [rsiLast, avgLossLast_zero c hpos]
  exact rsi_of_zero_loss _ (avgGainLast_pos c hpos hlen)

theorem avgGainLast_zero (c : List ℚ) (hz : ∀ d ∈ diffs c, d = 0) :
    avgGainLast c = 0 := by
  rw [avgGainLast, List.sum_eq_zero, zero_div]
  intro x hx
  rcases List.mem_map.mp hx with ⟨d, hd, rfl⟩
  rw [hz d (List.drop_subset _ _ hd)]
  simp

theorem avgLossLast_zero_of_flat (c : List ℚ) (hz : ∀ d ∈ diffs c, d = 0) :
    avgLossLast c = 0 := by
  rw [avgLossLast, List.sum_eq_zero, zero_div]
  intro x hx
  rcases List.mem_map.mp hx with ⟨d, hd, rfl⟩
  rw [hz d (List.drop_subset _ _ hd)]
  simp

theorem rsiLast_flat (c : List ℚ) (hz : ∀ d ∈ diffs c, d = 0) :
    rsiLast c = .nan := by
  rw [rsiLast, avgGainLast_zero c hz, avgLossLast_zero_of_flat c hz]
  show PFloat.sub (.fin 100)
    (PFloat.div (.fin 100) (PFloat.add (.fin 1) (PFloat.div (.fin 0) (.fin 0)))) = .nan
  have h1 : PFloat.div (.fin 0) (.fin 0) = .nan := by
    simp [PFloat.div]
  rw [h1]
  rfl

/-! ### Warm-up lemmas for the rotation metrics -/

theorem rsRatioAt_warmup (s b : List ℚ) (t : ℕ) (ht : t < 13) :
    rsRatioAt s b t = none := by
  have hroll : rollingMeanO 14 ((rsSeries s b).map some) t = none := by
    rw [rollingMeanO, if_pos (Or.inl (by omega))]
  unfold rsRatioAt
  rw [hroll]
  rcases hx : (rsSeries s b)[t]? with _ | r <;> rfl

theorem rsRatioSeq_getElem (s b : List ℚ) (j : ℕ) (hj : j < (rsRatioSeq s b).length) :
    (rsRatioSeq s b)[j] = rsRatioAt s b j := by
  simp [rsRatioSeq]

theorem rollingMeanO_rsRatioSeq_warmup (s b : List ℚ) (t : ℕ) (ht : t < 26) :
    rollingMeanO 14 (rsRatioSeq s b) t = none := by
  rw [rollingMeanO]
  by_cases hguard : t + 1 < 14 ∨ (rsRatioSeq s b).length ≤ t
  · rw [if_pos hguard]
  · rw [if_neg hguard]
    push_neg at hguard
    obtain ⟨h14, hlt⟩ := hguard
    have hj : t + 1 - 14 < (rsRatioSeq s b).length := by omega
    rw [List.drop_eq_getElem_cons hj, rsRatioSeq_getElem s b _ hj,
      rsRatioAt_warmup s b _ (by omega)]
    rfl

theorem rsMomentumAt_warmup (s b : List ℚ) (t : ℕ) (ht : t < 26) :
    rsMomentumAt s b t = none := by
  unfold rsMomentumAt
  rw [rollingMeanO_rsRatioSeq_warmup s b t ht]
  rcases hx : (rsRatioSeq s b)[t]? with _ | v
  · rfl
  · rcases v with _ | r <;> rfl

theorem get_quadrantF_nan (r : PFloat) : get_quadrantF r .nan = .Improving := by
  simp [get_quadrantF, PFloat.ge, PFloat.lt, PFloat.gt]

/-! ### Claim theorems -/

/-- C1: the quadrant classifier returns Leading iff both coordinates are at
least 100, Weakening iff the ratio is at least 100 and the momentum below
100, Lagging iff both are below 100, and Improving iff the ratio is below
100 and the momentum at least 100; equality to 100 always takes the
inclusive branch, so (100,100) is Leading, (100,99.9) is Weakening,
(99.9,100) is Improving and (99.9,99.9) is Lagging, and exactly one label
is returned for every input. -/
theorem claim1_quadrant_classification :
    (∀ r m : ℚ,
      (get_quadrant r m = .Leading ↔ 100 ≤ r ∧ 100 ≤ m) ∧
      (get_quadrant r m = .Weakening ↔ 100 ≤ r ∧ m < 100) ∧
      (get_quadrant r m = .Lagging ↔ r < 100 ∧ m < 100) ∧
      (get_quadrant r m = .Improving ↔ r < 100 ∧ 100 ≤ m)) ∧
    get_quadrant 100 100 = .Leading ∧
    get_quadrant 100 (999 / 10) = .Weakening ∧
    get_quadrant (999 / 10) 100 = .Improving ∧
    get_quadrant (999 / 10) (999 / 10) = .Lagging := by
  constructor
  · intro r m
    rcases le_or_lt 100 r with hr | hr <;> rcases le_or_lt 100 m with hm | hm
    · simp [get_quadrant, hr, hm, hr.not_lt, hm.not_lt]
    · simp [get_quadrant, hr, hm, hr.not_lt, hm.not_le]
    · simp [get_quadrant, hr, hm, hr.not_le, hm.not_lt]
    · simp [get_quadrant, hr, hm, hr.not_le, hm.not_le]
  · refine ⟨?_, ?_, ?_, ?_⟩ <;> norm_num [get_quadrant]

/-- C2: for a close series with at least 21 observations, the daily entry
signal is "YES" exactly when the latest close strictly exceeds the
20-period simple moving average, the 14-period RSI (100 - 100/(1+RS) with
RS the quotient of the rolling means of clipped positive and negative
changes) strictly exceeds 55, and the latest RSI strictly exceeds the
preceding RSI; otherwise it is "NO". -/
theorem claim2_entry_signal (c : List ℚ) (h : 21 ≤ c.length) :
    (daily_entry_signal c = "YES" ↔
      (smaLast 20 c < c.getLastD 0 ∧ (rsiLast c).gt (.fin 55) = true ∧
        (rsiLast c).gt (rsiLast c.dropLast) = true)) ∧
    (daily_entry_signal c = "NO" ↔
      ¬(smaLast 20 c < c.getLastD 0 ∧ (rsiLast c).gt (.fin 55) = true ∧
        (rsiLast c).gt (rsiLast c.dropLast) = true)) := by
  have h1 := signal_yes_iff c h
  refine ⟨h1, ?_, ?_⟩
  · intro hno hcond
    have hyes := h1.mpr hcond
    rw [hyes] at hno
    exact absurd hno (by decide)
  · intro hnc
    rcases signal_cases c with hy | hn
    · exact absurd (h1.mp hy) hnc
    · exact hn

set_option maxRecDepth 8000 in
/-- C2 witness: a concrete 21-point series satisfying all three conditions
is answered "YES". -/
theorem claim2_entry_signal_witness :
    21 ≤ witSeries.length ∧ daily_entry_signal witSeries = "YES" :=
  ⟨by decide, (claim2_entry_signal witSeries (by decide)).1.mpr
    (by norm_num [witSeries, smaLast, lastN, diffs, avgGainLast, avgLossLast,
      rsiLast, PFloat.gt, PFloat.add, PFloat.sub, PFloat.div, max_def])⟩

/-- C8: with fewer than 21 observations the daily entry signal is "NO"
unconditionally. -/
theorem claim8_short_series (c : List ℚ) (h : c.length < 21) :
    daily_entry_signal c = "NO" := by
  rw [daily_entry_signal, if_pos h]

/-- C8 witness: a 10-point series yields "NO". -/
theorem claim8_short_series_witness :
    shortSeries.length < 21 ∧ daily_entry_signal shortSeries = "NO" :=
  ⟨by decide, claim8_short_series shortSeries (by decide)⟩

/-- C10: the daily entry signal always returns exactly "YES" or "NO", and a
constant price series (whose RSI ratio is the indeterminate 0/0, hence NaN)
yields "NO" rather than an error, for every length and price. -/
theorem claim10_signal_safety :
    (∀ c : List ℚ, daily_entry_signal c = "YES" ∨ daily_entry_signal c = "NO") ∧
    (∀ (q : ℚ) (n : ℕ), daily_entry_signal (List.replicate n q) = "NO") := by
  refine ⟨signal_cases, ?_⟩
  intro q n
  by_cases h : (List.replicate n q).length < 21
  · rw [daily_entry_signal, if_pos h]
  · have hnan : rsiO (List.replicate n q) ((List.replicate n q).length - 1) = .nan := by
      rw [rsiO_last _ (by omega), rsiLast_flat _ (diffs_replicate n q)]
    rw [daily_entry_signal, if_neg h, hnan]
    simp [PFloat.gt]

set_option maxRecDepth 8000 in
/-- C3 counterexample: the strictly increasing 20-point series 1..20 has a
latest close above its 20-period moving average and a latest RSI of exactly
100 (zero average loss, no division fault), yet the daily entry signal is
"NO", contradicting the claimed "YES": 20 observations fall below the
21-observation minimum. -/
theorem claim3_counterexample :
    List.Chain' (· < ·) incSeries ∧ incSeries.length = 20 ∧
    smaLast 20 incSeries < incSeries.getLastD 0 ∧
    rsiLast incSeries = .fin 100 ∧
    daily_entry_signal incSeries = "NO" := by
  refine ⟨by norm_num [incSeries, List.chain'_cons], by decide, ?_, ?_, rfl⟩
  · norm_num [smaLast, lastN, incSeries]
  · norm_num [rsiLast, avgGainLast, avgLossLast, lastN, diffs, incSeries,
      PFloat.div, PFloat.add, PFloat.sub, max_def]

/-- C3 amended: a zero 14-period average loss with positive average gain
resolves to RSI = 100, not a division fault; a strictly increasing
20-point close series has RSI exactly 100 at the latest observation but
the daily entry signal is "NO" (20 observations fall below the 21-row
minimum), and even with at least 21 strictly increasing observations the
signal is "NO", because the RSI equals 100 at both the latest and the
preceding observation and the strictly-rising RSI condition fails. -/
theorem claim3_rsi_sentinel_amended :
    (∀ (c : List ℚ) (i : ℕ) (g : ℚ), avgGainO c i = some g → 0 < g →
      avgLossO c i = some 0 → rsiO c i = .fin 100) ∧
    (∀ c : List ℚ, List.Chain' (· < ·) c → c.length = 20 →
      rsiLast c = .fin 100 ∧ daily_entry_signal c = "NO") ∧
    (∀ c : List ℚ, List.Chain' (· < ·) c → 21 ≤ c.length →
      daily_entry_signal c = "NO") := by
  refine ⟨?_, ?_, ?_⟩
  · intro c i g hg hgpos hl
    rw [rsiO, rsO, hg, hl]
    exact rsi_of_zero_loss g hgpos
  · intro c hch hlen
    have hpos := diffs_pos c hch
    refine ⟨rsiLast_hundred c hpos (by omega), ?_⟩
    rw [daily_entry_signal, if_pos (by omega)]
  · intro c hch hlen
    have hpos := diffs_pos c hch
    have h1 : rsiO c (c.length - 1) = .fin 100 := by
      rw [rsiO_last c (by omega)]
      exact rsiLast_hundred c hpos (by omega)
    have hpos2 : ∀ d ∈ diffs c.dropLast, 0 < d := by
      intro d hd
      rw [diffs_dropLast] at hd
      exact hpos d (List.dropLast_subset _ hd)
    have h2 : rsiO c (c.length - 2) = .fin 100 := by
      rw [rsiO_prev c (by omega)]
      exact rsiLast_hundred c.dropLast hpos2 (by rw [List.length_dropLast]; omega)
    rw [daily_entry_signal, if_neg (by omega), h1, h2]
    simp [PFloat.gt]

/-- C3 amended witness: the series 1..20 realizes the RSI sentinel and the
"NO" answer. -/
theorem claim3_rsi_sentinel_amended_witness :
    rsiLast incSeries = .fin 100 ∧ daily_entry_signal incSeries = "NO" :=
  claim3_rsi_sentinel_amended.2.1 incSeries
    (by norm_num [incSeries, List.chain'_cons]) (by decide)

/-- C4 amended: RS-Ratio is missing while fewer than 14 periods of RS
history exist, RS-Momentum is missing while fewer than 27 periods exist
(both rolling windows must fill), but an undefined value is nonetheless
classified by the latest-row loop: a NaN coordinate fails every comparison
and falls through to the Improving branch. -/
theorem claim4_rotation_warmup_amended :
    (∀ (s b : List ℚ) (t : ℕ), t < 13 → rsRatioAt s b t = none) ∧
    (∀ (s b : List ℚ) (t : ℕ), t < 26 → rsMomentumAt s b t = none) ∧
    (∀ r : PFloat, get_quadrantF r .nan = .Improving) :=
  ⟨fun s b t ht => rsRatioAt_warmup s b t ht,
   fun s b t ht => rsMomentumAt_warmup s b t ht,
   fun r => get_quadrantF_nan r⟩

/-- C4 amended witness: a one-period table has an undefined RS-Momentum. -/
theorem claim4_rotation_warmup_amended_witness :
    rsMomentumAt [1] [1] 0 = none :=
  claim4_rotation_warmup_amended.2.1 [1] [1] 0 (by omega)

/-- C4 counterexample: at a 20-period aligned table of constant prices the
latest RS-Momentum is undefined, yet the ranking row classifies the sector
— as Improving — contradicting the claim that undefined values are never
classified. -/
theorem claim4_counterexample :
    rsMomentumAt onesSeries onesSeries 19 = none ∧
    (latest_row "Daily" (fun _ => []) onesSeries ("Metal", onesSeries)).quadrant
      = Quadrant.Improving := by
  refine ⟨rsMomentumAt_warmup onesSeries onesSeries 19 (by omega), ?_⟩
  have hlen : (rsSeries onesSeries onesSeries).length = 20 := by
    simp [rsSeries, onesSeries]
  show get_quadrantF
      (toPFloat (rsRatioAt onesSeries onesSeries ((rsSeries onesSeries onesSeries).length - 1)))
      (toPFloat (rsMomentumAt onesSeries onesSeries ((rsSeries onesSeries onesSeries).length - 1)))
      = Quadrant.Improving
  rw [hlen]
  rw [rsMomentumAt_warmup onesSeries onesSeries 19 (by omega)]
  exact get_quadrantF_nan _

/-- C5: with the IT sector download unusable, the price table omits IT as
claimed, but the pipeline then raises a KeyError instead of processing the
remaining sectors, because `prices[sectors.keys()]` selects every
configured sector name from a table that lacks the skipped one. -/
theorem claim5_missing_sector_raises :
    (buildPrices dlsMissingIT).map (fun p => p.1)
      = ["Bank", "FMCG", "Auto", "Pharma", "Metal", "Energy"] ∧
    runEngine benchCandsOk (some goodSeries) dlsMissingIT "Weekly" (fun _ => [])
      = Except.error "KeyError: columns not in index" :=
  ⟨rfl, rfl⟩

theorem quadrant_order_inj (q1 q2 : Quadrant)
    (h : quadrant_order q1 = quadrant_order q2) : q1 = q2 := by
  cases q1 <;> cases q2 <;> first
    | rfl
    | exact absurd h (by simp [quadrant_order])

theorem rankLE_trans (a b c : Row) (hab : rankLE a b = true)
    (hbc : rankLE b c = true) : rankLE a c = true := by
  simp only [rankLE, Bool.or_eq_true, Bool.and_eq_true, decide_eq_true_eq] at hab hbc ⊢
  rcases hab with h1 | ⟨h1, h2⟩ <;> rcases hbc with h3 | ⟨h3, h4⟩
  · exact Or.inl (h1.trans h3)
  · exact Or.inl (by omega)
  · exact Or.inl (by omega)
  · exact Or.inr ⟨h1.trans h3, h4.trans h2⟩

theorem rankLE_total (a b : Row) : (rankLE a b || rankLE b a) = true := by
  simp only [Bool.or_eq_true, rankLE, Bool.and_eq_true, decide_eq_true_eq]
  rcases Nat.lt_trichotomy (quadrant_order a.quadrant) (quadrant_order b.quadrant)
    with h | h | h
  · exact Or.inl (Or.inl h)
  · rcases le_total b.rsRatioVal a.rsRatioVal with hr | hr
    · exact Or.inl (Or.inr ⟨h, hr⟩)
    · exact Or.inr (Or.inr ⟨h.symm, hr⟩)
  · exact Or.inr (Or.inl h)

/-- C6: the sorted ranking is a permutation of its input (exactly one row
per sector of the input metrics) and is ordered primarily by the fixed
quadrant priority Leading < Improving < Weakening < Lagging ascending and
secondarily by RS-Ratio descending within a quadrant. -/
theorem claim6_ranking_order (rows : List Row) :
    (ranking_sorted rows).Perm rows ∧
    (ranking_sorted rows).Pairwise (fun a b =>
      quadrant_order a.quadrant < quadrant_order b.quadrant ∨
        (a.quadrant = b.quadrant ∧ b.rsRatioVal ≤ a.rsRatioVal)) := by
  constructor
  · exact List.mergeSort_perm rows rankLE
  · have hs := List.sorted_mergeSort rankLE_trans rankLE_total rows
    refine hs.imp ?_
    intro a b hab
    simp only [rankLE, Bool.or_eq_true, Bool.and_eq_true, decide_eq_true_eq] at hab
    rcases hab with h | ⟨h, h2⟩
    · exact Or.inl h
    · exact Or.inr ⟨quadrant_order_inj _ _ h, h2⟩

/-- C7: the per-quadrant count table always lists all four labels, in the
fixed order, and the counts sum to the number of classified rows. -/
theorem claim7_quadrant_counts (qs : List Quadrant) :
    (quadrant_counts qs).map Prod.fst
      = [Quadrant.Leading, Quadrant.Improving, Quadrant.Weakening, Quadrant.Lagging] ∧
    ((quadrant_counts qs).map Prod.snd).sum = qs.length := by
  constructor
  · simp [quadrant_counts]
  · simp only [quadrant_counts, List.map_cons, List.map_nil, List.sum_cons,
      List.sum_nil]
    induction qs with
    | nil => simp
    | cons q t ih =>
      cases q <;> simp [List.filter_cons] <;> omega

/-- C9: if every benchmark candidate fails, or the mandatory benchmark
download is missing or empty, the pipeline terminates with an error and
emits no output whatsoever. -/
theorem claim9_benchmark_fatal (cands : List (String × Option (List ℚ)))
    (bm : Option (List ℚ)) (dls : List (String × Option (List ℚ)))
    (tf : String) (dd : String → List ℚ)
    (h : findBenchmark cands = none ∨ bm = none ∨ bm = some []) :
    ∃ e, runEngine cands bm dls tf dd = Except.error e ∧
      ∀ out, runEngine cands bm dls tf dd ≠ Except.ok out := by
  rcases h with h | h | h
  · unfold runEngine
    rw [h]
    exact ⟨_, rfl, fun out hh => Except.noConfusion hh⟩
  · subst h
    unfold runEngine
    cases hfb : findBenchmark cands with
    | none => exact ⟨_, rfl, fun out hh => Except.noConfusion hh⟩
    | some v => exact ⟨_, rfl, fun out hh => Except.noConfusion hh⟩
  · subst h
    unfold runEngine
    cases hfb : findBenchmark cands with
    | none => exact ⟨_, rfl, fun out hh => Except.noConfusion hh⟩
    | some v => exact ⟨_, rfl, fun out hh => Except.noConfusion hh⟩

/-- C9 witness: with all benchmark candidates failing and the main download
missing, the pipeline errors out. -/
theorem claim9_benchmark_fatal_witness :
    ∃ e, runEngine benchCandsFail none dlsMissingIT "Weekly" (fun _ => [])
        = Except.error e ∧
      ∀ out, runEngine benchCandsFail none dlsMissingIT "Weekly" (fun _ => [])
        ≠ Except.ok out :=
  claim9_benchmark_fatal benchCandsFail none dlsMissingIT "Weekly" (fun _ => [])
    (Or.inr (Or.inl rfl))

end RRG
